import Mathlib

/-!
# Verification of the orbweaver blob engine

Shallow embedding of the orbweaver core (packages/orbweaver/src): the
harmonic generator, the blob shape model, the behavior variants, the
impulse spring-damper integrator, and the per-cell intensity sampler.
Numbers are modelled as real numbers; JavaScript `Math.sin`, `Math.cos`,
`Math.exp`, `Math.hypot`, `Math.atan2` become their Mathlib counterparts.
-/

namespace Orbweaver

/-- One sinusoidal term of the blob's radial function
(`harmonics.ts`, type `Harmonic`). -/
structure Harmonic where
  amplitude : ℝ
  frequency : ℝ
  phase : ℝ

/-- Generation parameters (`harmonics.ts`, type `HarmonicGenParams`).
`frequencySpacing` is a raw string, as in the source, so that the
switch's default branch is observable. -/
structure HarmonicGenParams where
  numHarmonics : ℤ
  baseFrequency : ℝ
  frequencySpacing : String
  phaseSpread : ℝ

/-- The body of the generation loop in `generateHarmonics`
(`harmonics.ts`): amplitude `1/(i+1)`, frequency by spacing mode with
geometric ratio `1.7` and additive step `1`, phase `i * phaseSpread`. -/
noncomputable def harmonicAt (p : HarmonicGenParams) (i : ℕ) : Harmonic :=
  { amplitude := 1 / ((i : ℝ) + 1)
    frequency :=
      match p.frequencySpacing with
      | "harmonic" => p.baseFrequency * ((i : ℝ) + 1)
      | "geometric" => p.baseFrequency * (1.7 : ℝ) ^ i
      | "additive" => p.baseFrequency + 1 * (i : ℝ)
      | _ => p.baseFrequency * ((i : ℝ) + 1)
    phase := (i : ℝ) * p.phaseSpread }

/-- `generateHarmonics(params)` (`harmonics.ts`): the loop
`for (let i = 0; i < numHarmonics; i++)` pushes `harmonicAt` for each
index, producing nothing when `numHarmonics <= 0`. -/
noncomputable def generateHarmonics (p : HarmonicGenParams) : List Harmonic :=
  (List.range p.numHarmonics.toNat).map (harmonicAt p)

/-- The blob shape state (`blob.ts`, class `BlobModel`). -/
structure BlobModel where
  baseRadius : ℝ
  amplitude : ℝ
  harmonics : List Harmonic

/-- The `BlobModel` constructor with an explicit harmonic array:
`amplitude` is always initialised to `0.12` and never mutated afterwards
(`blob.ts`, constructor). -/
noncomputable def BlobModel.new (baseRadius : ℝ) (harmonics : List Harmonic) :
    BlobModel :=
  { baseRadius := baseRadius, amplitude := 0.12, harmonics := harmonics }

/-- `BlobModel.setHarmonics` with an explicit array: replaces the
harmonic list wholesale (`blob.ts`). -/
def BlobModel.setHarmonics (b : BlobModel) (harmonics : List Harmonic) :
    BlobModel :=
  { b with harmonics := harmonics }

/-- `BlobModel.radiusAt(angle, timeSeconds)` (`blob.ts`): starts from
`baseRadius` and accumulates
`amplitude * h.amplitude * sin(h.frequency*angle + h.phase + timeSeconds*0.9)`
over the harmonic list. -/
noncomputable def BlobModel.radiusAt (b : BlobModel) (angle timeSeconds : ℝ) : ℝ :=
  b.harmonics.foldl
    (fun radius h =>
      radius +
        b.amplitude * h.amplitude *
          Real.sin (h.frequency * angle + h.phase + timeSeconds * 0.9))
    b.baseRadius

/-- Folding `(· + f ·)` over a list equals the initial value plus the
sum of the mapped list. -/
theorem foldl_add_map_sum (f : Harmonic → ℝ) (l : List Harmonic) (init : ℝ) :
    l.foldl (fun r h => r + f h) init = init + (l.map f).sum := by
  induction l generalizing init with
  | nil => simp
  | cons h t ih =>
    simp only [List.foldl_cons, List.map_cons, List.sum_cons, ih]
    ring

/-- Closed form of `radiusAt`: base radius plus the sum of the harmonic
contributions, with the source's `timeSeconds * 0.9` scaling. -/
theorem radiusAt_eq_sum (b : BlobModel) (angle t : ℝ) :
    b.radiusAt angle t =
      b.baseRadius +
        (b.harmonics.map
          (fun h =>
            b.amplitude * h.amplitude *
              Real.sin (h.frequency * angle + h.phase + t * 0.9))).sum := by
  unfold BlobModel.radiusAt
  exact foldl_add_map_sum _ _ _

/-! ## Behaviors (`behavior.ts`) -/

/-- The behavior type tags (`behavior.ts`, `BehaviorType` plus the
`crosshair` tag introduced alongside `CrosshairBehavior`). -/
inductive BehaviorType where
  | bob
  | rotate
  | orbit
  | crosshair
deriving DecidableEq

/-- State of `BobBehavior`: parameters `amplitude`, `rate` and the
privately integrated `phase` / smoothed `currentAmplitude`. -/
structure BobState where
  amplitude : ℝ
  rate : ℝ
  phase : ℝ
  currentAmplitude : ℝ

/-- `BobBehavior.update(deltaTimeSeconds)`: clamps negative deltas to
zero, integrates the phase at `rate`, and moves `currentAmplitude`
toward `amplitude` by the clamped factor `1 - exp(-dt*12)`. -/
noncomputable def BobState.update (b : BobState) (deltaTimeSeconds : ℝ) :
    BobState :=
  let dt := max 0 deltaTimeSeconds
  let smoothing := 1 - Real.exp (-dt * 12)
  { b with
    phase := b.phase + b.rate * dt
    currentAmplitude :=
      b.currentAmplitude +
        (b.amplitude - b.currentAmplitude) * max 0 (min 1 smoothing) }

/-- State of `RotateBehavior`: parameters `speed`, `direction` and the
privately integrated `phase`. -/
structure RotateState where
  speed : ℝ
  direction : ℝ
  phase : ℝ

/-- `RotateBehavior.update(deltaTimeSeconds)`: clamps negative deltas to
zero and integrates `phase += speed * direction * dt`. -/
def RotateState.update (r : RotateState) (deltaTimeSeconds : ℝ) : RotateState :=
  { r with phase := r.phase + r.speed * r.direction * max 0 deltaTimeSeconds }

/-- Orbit axis selector (`behavior.ts`, `OrbitParams.axis`). -/
inductive OrbitAxis where
  | x
  | y
  | both
deriving DecidableEq

/-- State of `OrbitBehavior`. -/
structure OrbitState where
  radiusUnits : ℝ
  angularSpeed : ℝ
  phase : ℝ
  axis : OrbitAxis

/-- `OrbitBehavior.update(deltaTimeSeconds)`: clamps negative deltas to
zero and integrates `phase += angularSpeed * dt`. -/
def OrbitState.update (o : OrbitState) (deltaTimeSeconds : ℝ) : OrbitState :=
  { o with phase := o.phase + o.angularSpeed * max 0 deltaTimeSeconds }

/-- State of `CrosshairBehavior` (`index.ts`): a single clamped
strength. -/
structure CrosshairState where
  strength : ℝ

/-- `CrosshairBehavior.update`: no time-based evolution. -/
def CrosshairState.update (c : CrosshairState) (_deltaTimeSeconds : ℝ) :
    CrosshairState :=
  c

/-- A behavior instance: one of the four concrete variants with its
private state. -/
inductive Behavior where
  | bob (s : BobState)
  | rotate (s : RotateState)
  | orbit (s : OrbitState)
  | crosshair (s : CrosshairState)

/-- The `type` tag of a behavior instance. -/
def Behavior.type : Behavior → BehaviorType
  | .bob _ => .bob
  | .rotate _ => .rotate
  | .orbit _ => .orbit
  | .crosshair _ => .crosshair

/-- Dynamic dispatch of `update` over the behavior variants, as done by
the engine's per-frame loop. -/
noncomputable def Behavior.update : Behavior → ℝ → Behavior
  | .bob s, dt => .bob (s.update dt)
  | .rotate s, dt => .rotate (s.update dt)
  | .orbit s, dt => .orbit (s.update dt)
  | .crosshair s, dt => .crosshair (s.update dt)

/-- `Orbweaver.addBehavior(behavior)` (`index.ts`): filters out any
behavior sharing the new behavior's type tag, then appends it. -/
def addBehavior (behaviors : List Behavior) (behavior : Behavior) :
    List Behavior :=
  (behaviors.filter fun b => decide (b.type ≠ behavior.type)) ++ [behavior]

/-! ## Accumulator channels and `contribute` (`behavior.ts`, `index.ts`) -/

/-- The well-known accumulator channel keys (`behavior.ts`, `Channels`). -/
def Channels.rotationPhase : String := "orbweaver.rotationPhase"

/-- See `Channels.rotationPhase`. -/
def Channels.xOffsetUnits : String := "orbweaver.xOffsetUnits"

/-- See `Channels.rotationPhase`. -/
def Channels.yOffsetUnits : String := "orbweaver.yOffsetUnits"

/-- The `cursorInfluence` channel key: when positive it is documented to
enable cursor-driven crosshair deformation and act as a strength
multiplier. -/
def Channels.cursorInfluence : String := "orbweaver.cursorInfluence"

/-- The open per-frame accumulator: a string-keyed map of numbers with
absent keys (`acc[k] ?? 0` in the source reads them as `0`). -/
def FrameAccumulator : Type := String → Option ℝ

/-- A fresh accumulator (`const acc = {}` in `advanceBehaviors`). -/
def emptyAcc : FrameAccumulator := fun _ => none

/-- `acc[k] ?? 0`. -/
def readChannel (acc : FrameAccumulator) (k : String) : ℝ :=
  (acc k).getD 0

/-- `acc[k] = (acc[k] ?? 0) + v`. -/
def addChannel (acc : FrameAccumulator) (k : String) (v : ℝ) :
    FrameAccumulator :=
  fun k2 => if k2 = k then some ((acc k).getD 0 + v) else acc k2

/-- Dynamic dispatch of `contribute` over the behavior variants:
Bob adds `sin(phase) * currentAmplitude` (when positive) to the y
offset, Rotate adds its absolute phase, Orbit adds `cos`/`sin` of its
phase times its radius on the selected axes, and Crosshair adds its
strength to the `cursorInfluence` channel. -/
noncomputable def Behavior.contribute : Behavior → FrameAccumulator → FrameAccumulator
  | .bob s, acc =>
      addChannel acc Channels.yOffsetUnits
        (if s.currentAmplitude > 0 then Real.sin s.phase * s.currentAmplitude
         else 0)
  | .rotate s, acc => addChannel acc Channels.rotationPhase s.phase
  | .orbit s, acc =>
      let x := Real.cos s.phase * s.radiusUnits
      let y := Real.sin s.phase * s.radiusUnits
      let acc1 :=
        if s.axis = OrbitAxis.x ∨ s.axis = OrbitAxis.both then
          addChannel acc Channels.xOffsetUnits x
        else acc
      if s.axis = OrbitAxis.y ∨ s.axis = OrbitAxis.both then
        addChannel acc1 Channels.yOffsetUnits y
      else acc1
  | .crosshair s, acc => addChannel acc Channels.cursorInfluence s.strength

/-- The accumulation loop of `advanceBehaviors` (`index.ts`): for each
behavior a fresh accumulator is filled by `contribute` and the three
channels `rotationPhase`, `yOffsetUnits`, `xOffsetUnits` are summed.
The `cursorInfluence` channel is never read there. -/
noncomputable def frameContributions (behaviors : List Behavior) : ℝ × ℝ × ℝ :=
  behaviors.foldl
    (fun t b =>
      let acc := b.contribute emptyAcc
      (t.1 + readChannel acc Channels.rotationPhase,
        t.2.1 + readChannel acc Channels.yOffsetUnits,
        t.2.2 + readChannel acc Channels.xOffsetUnits))
    (0, 0, 0)

/-- Modelled from the spec: the accumulated `cursorInfluence` that the
engine is required to read from the behaviors' contributions ("engine
must read `cursorInfluence` from the accumulator"); the accumulation
loop in `advanceBehaviors` contains no such read, so this derived
reading is reconstructed here from the behaviors' `contribute`. -/
noncomputable def accumulatedCursorInfluence (behaviors : List Behavior) : ℝ :=
  behaviors.foldl
    (fun t b => t + readChannel (b.contribute emptyAcc) Channels.cursorInfluence)
    0

/-! ## Impulse spring-damper (`index.ts`, `advanceBehaviors`) -/

/-- A 2D vector of real numbers (`index.ts`, `Vector2`). -/
structure Vector2 where
  x : ℝ
  y : ℝ

/-- The impulse integration state: offset and velocity in normalized
units. -/
structure ImpulseState where
  offset : Vector2
  velocity : Vector2

/-- `impulseStiffness` (`k = 20`). -/
def impulseStiffness : ℝ := 20

/-- `impulseDamping` (`c = 9`). -/
def impulseDamping : ℝ := 9

/-- The snap threshold `eps = 1e-4`. -/
def impulseEps : ℝ := 1e-4

open Classical in
/-- The impulse block of `advanceBehaviors` (`index.ts`): when
`dtSeconds > 0`, a semi-implicit Euler step on each axis followed by a
per-axis snap to exact zero when both the new offset and the new
velocity are below `eps` in absolute value; otherwise the state is left
untouched. -/
noncomputable def advanceImpulse (s : ImpulseState) (dtSeconds : ℝ) :
    ImpulseState :=
  if 0 < dtSeconds then
    let ax := -impulseStiffness * s.offset.x - impulseDamping * s.velocity.x
    let vx := s.velocity.x + ax * dtSeconds
    let ox := s.offset.x + vx * dtSeconds
    let ay := -impulseStiffness * s.offset.y - impulseDamping * s.velocity.y
    let vy := s.velocity.y + ay * dtSeconds
    let oy := s.offset.y + vy * dtSeconds
    let snapX := |ox| < impulseEps ∧ |vx| < impulseEps
    let snapY := |oy| < impulseEps ∧ |vy| < impulseEps
    { offset := ⟨if snapX then 0 else ox, if snapY then 0 else oy⟩
      velocity := ⟨if snapX then 0 else vx, if snapY then 0 else vy⟩ }
  else s

/-- The semi-implicit Euler step on one axis as the specification words
it: `velocity' = velocity + (-20*offset - 9*velocity)*dt` then
`offset' = offset + velocity'*dt`; returns `(offset', velocity')`. -/
def eulerAxis (offset velocity dt : ℝ) : ℝ × ℝ :=
  (offset + (velocity + (-20 * offset - 9 * velocity) * dt) * dt,
    velocity + (-20 * offset - 9 * velocity) * dt)

open Classical in
/-- The per-axis snap as the specification words it: both components
become exactly zero precisely when both are below `1e-4` in absolute
value. -/
noncomputable def snapAxis (p : ℝ × ℝ) : ℝ × ℝ :=
  if |p.1| < 1e-4 ∧ |p.2| < 1e-4 then (0, 0) else p

/-! ## Frame state and per-cell sampling (`index.ts`) -/

/-- The cached per-frame state read by `intensityAt`
(`index.ts`, field `frameState`). -/
structure FrameState where
  rotationPhase : ℝ
  xOffsetUnits : ℝ
  yOffsetUnits : ℝ
  cursorTheta : Option ℝ
  cursorDistanceUnits : Option ℝ

/-- `Math.atan2(y, x)`, modelled as the argument of the complex number
`x + y*i`. -/
noncomputable def atan2 (y x : ℝ) : ℝ :=
  Complex.arg ⟨x, y⟩

/-- The cursor-deformation block of `intensityAt` (`index.ts`,
lines 160-176): when `cursorTheta` is non-null the base radius is
compressed by `1 - 0.9 * max(0, cos(theta - cursorTheta)) * (1 - d)`
where `d` clamps `cursorDistanceUnits ?? 1` into `[0, 1]`; the
accumulated `cursorInfluence` does not appear. -/
noncomputable def deformedRadius (fs : FrameState) (theta baseRadius : ℝ) : ℝ :=
  match fs.cursorTheta with
  | none => baseRadius
  | some cursorTheta =>
    let angleDiff := theta - cursorTheta
    let angularFalloff := max 0 (Real.cos angleDiff)
    let d := min 1 (max 0 (fs.cursorDistanceUnits.getD 1))
    let distanceInfluence := 1 - d
    let strength : ℝ := 0.9
    let combined := angularFalloff * distanceInfluence
    baseRadius * (1 - strength * combined)

/-- Modelled from the spec: the cursor deformation as specified — it
applies only when `cursorTheta` is non-null AND the accumulated
`cursorInfluence` is positive, and the compression is scaled by that
accumulated strength. -/
noncomputable def deformedRadiusSpec (cursorInfluence : ℝ) (fs : FrameState)
    (theta baseRadius : ℝ) : ℝ :=
  match fs.cursorTheta with
  | none => baseRadius
  | some cursorTheta =>
    if 0 < cursorInfluence then
      let angularFalloff := max 0 (Real.cos (theta - cursorTheta))
      let d := min 1 (max 0 (fs.cursorDistanceUnits.getD 1))
      baseRadius * (1 - 0.9 * angularFalloff * (1 - d) * cursorInfluence)
    else baseRadius

/-- Engine state needed by per-cell sampling: the renderer's pixel
size, the grid size, the cached geometry, the blob, the frame state and
the debug-crosshair fields (`index.ts`, class `Orbweaver`). -/
structure EngineState where
  width : ℝ
  height : ℝ
  cols : ℝ
  rows : ℝ
  centerX : ℝ
  centerY : ℝ
  unitScale : ℝ
  blob : BlobModel
  frameState : FrameState
  debugCrosshair : Bool
  crosshairRow : Option ℝ
  crosshairCol : Option ℝ

/-- The early-return condition of `intensityAt`: debug crosshair is on,
both crosshair coordinates are set, and the sampled cell matches them
(the source compares `col` with `crosshairRow` and `row` with
`crosshairCol`). -/
def debugCrosshairHit (e : EngineState) (col row : ℝ) : Prop :=
  e.debugCrosshair = true ∧
    ∃ cr cc, e.crosshairRow = some cr ∧ e.crosshairCol = some cc ∧
      col = cr ∧ row = cc

open Classical in
/-- `Orbweaver.intensityAt(col, row)` (`index.ts`, lines 124-191):
maps the cell center to normalized coordinates, shifts by the frame
offsets, evaluates the blob radius at the sample angle with the
frame's rotation phase, applies the cursor deformation, and combines
an interior term with a Gaussian rim band, clamped by `min(1, ...)`. -/
noncomputable def intensityAt (e : EngineState) (col row : ℝ) : ℝ :=
  if debugCrosshairHit e col row then 1
  else
    let cellWidth := e.width / e.cols
    let cellHeight := e.height / e.rows
    let x := col * cellWidth + cellWidth * 0.5
    let y := row * cellHeight + cellHeight * 0.5
    let nx := (x - e.centerX) / e.unitScale
    let ny := (y - (e.centerY + e.frameState.yOffsetUnits * e.unitScale)) /
      e.unitScale
    let nxShifted := nx - e.frameState.xOffsetUnits
    let r := Real.sqrt (nxShifted ^ 2 + ny ^ 2) + 1e-6
    let theta := atan2 ny nxShifted
    let baseRadius := e.blob.radiusAt theta e.frameState.rotationPhase
    let radius := deformedRadius e.frameState theta baseRadius
    let interior := max 0 (1 - r / (radius + 1e-6))
    let band : ℝ := 0.04
    let signedDistance := r - radius
    let rim := Real.exp (-(signedDistance * signedDistance) / (2 * band * band))
    min 1 (interior * 0.85 + rim * 0.35)

/-! ## Theorems -/

/-- Elements of the generated list are given by the loop body. -/
theorem generateHarmonics_get (p : HarmonicGenParams) (i : ℕ)
    (h : i < (generateHarmonics p).length) :
    (generateHarmonics p).get ⟨i, h⟩ = harmonicAt p i := by
  unfold generateHarmonics at h ⊢
  simp

/-- C4: `generateHarmonics` produces `max(numHarmonics, 0)` harmonics
(none when `numHarmonics ≤ 0`); element `i` has amplitude `1/(i+1)`,
phase `i*phaseSpread`, and frequency `baseFrequency*1.7^i` for
`geometric`, `baseFrequency + i` for `additive`, and
`baseFrequency*(i+1)` for `harmonic` and for every unrecognized spacing
value. -/
theorem generateHarmonics_shape (p : HarmonicGenParams) :
    (generateHarmonics p).length = (max p.numHarmonics 0).toNat ∧
    (p.numHarmonics ≤ 0 → generateHarmonics p = []) ∧
    ∀ i (h : i < (generateHarmonics p).length),
      ((generateHarmonics p).get ⟨i, h⟩).amplitude = 1 / ((i : ℝ) + 1) ∧
      ((generateHarmonics p).get ⟨i, h⟩).phase = (i : ℝ) * p.phaseSpread ∧
      (p.frequencySpacing = "geometric" →
        ((generateHarmonics p).get ⟨i, h⟩).frequency =
          p.baseFrequency * (1.7 : ℝ) ^ i) ∧
      (p.frequencySpacing = "additive" →
        ((generateHarmonics p).get ⟨i, h⟩).frequency =
          p.baseFrequency + (i : ℝ)) ∧
      (p.frequencySpacing ≠ "geometric" → p.frequencySpacing ≠ "additive" →
        ((generateHarmonics p).get ⟨i, h⟩).frequency =
          p.baseFrequency * ((i : ℝ) + 1)) := by
  refine ⟨?_, ?_, ?_⟩
  · simp only [generateHarmonics, List.length_map, List.length_range]
    omega
  · intro hle
    unfold generateHarmonics
    rw [Int.toNat_of_nonpos hle]
    rfl
  · intro i h
    rw [generateHarmonics_get]
    refine ⟨rfl, rfl, ?_, ?_, ?_⟩
    · intro hs; simp [harmonicAt, hs]
    · intro hs; simp [harmonicAt, hs]
    · intro hg ha
      unfold harmonicAt
      dsimp only
      split
      · rfl
      · exact absurd (by assumption) hg
      · exact absurd (by assumption) ha
      · rfl

/-- Witness for C4 at concrete inputs: `numHarmonics = -1` yields the
empty list, and the second geometric harmonic of
`{numHarmonics := 2, baseFrequency := 3, spacing := "geometric"}` has
frequency `3 * 1.7`. -/
theorem generateHarmonics_shape_witness :
    generateHarmonics ⟨-1, 5, "harmonic", 0⟩ = [] ∧
    ((generateHarmonics ⟨2, 3, "geometric", 0⟩).get
        ⟨1, by norm_num [generateHarmonics]⟩).frequency = 3 * (1.7 : ℝ) ^ 1 :=
  ⟨(generateHarmonics_shape ⟨-1, 5, "harmonic", 0⟩).2.1 (by norm_num),
    ((generateHarmonics_shape ⟨2, 3, "geometric", 0⟩).2.2 1
      (by norm_num [generateHarmonics])).2.2.1 rfl⟩

/-- C6: Rotate integration is additive in the time delta for
non-negative chunks, and in particular three `update(1.0)` steps on a
fresh `{speed := 1, direction := 1}` behavior give phase exactly `3`,
the same as one `update(3.0)`. -/
theorem rotate_update_chunking (r : RotateState) (a b : ℝ)
    (ha : 0 ≤ a) (hb : 0 ≤ b) :
    (r.update a).update b = r.update (a + b) ∧
    (((RotateState.mk 1 1 0).update 1).update 1).update 1 =
      (RotateState.mk 1 1 0).update 3 ∧
    ((((RotateState.mk 1 1 0).update 1).update 1).update 1).phase = 3 := by
  refine ⟨?_, ?_, ?_⟩
  · cases r with
    | mk s d ph =>
      simp only [RotateState.update, RotateState.mk.injEq,
        max_eq_right ha, max_eq_right hb, max_eq_right (add_nonneg ha hb)]
      refine ⟨trivial, trivial, by ring⟩
  · simp only [RotateState.update, RotateState.mk.injEq]
    norm_num
  · simp only [RotateState.update]
    norm_num

/-- Witness for C6: chunking `1` then `2` seconds equals one `3` second
step on a concrete rotate state. -/
theorem rotate_update_chunking_witness :
    ((RotateState.mk 2 1 0).update 1).update 2 =
      (RotateState.mk 2 1 0).update (1 + 2) :=
  (rotate_update_chunking (RotateState.mk 2 1 0) 1 2 (by norm_num)
      (by norm_num)).1

/-- C10: every behavior variant leaves its entire state unchanged under
a non-positive time delta: negative deltas are clamped to zero before
integration. -/
theorem behavior_update_nonpos_id (b : Behavior) (dt : ℝ) (h : dt ≤ 0) :
    b.update dt = b := by
  have hmax : max 0 dt = 0 := max_eq_left h
  cases b with
  | bob s =>
    cases s with
    | mk a rt ph cur =>
      simp [Behavior.update, BobState.update, hmax]
  | rotate s =>
    cases s with
    | mk sp d ph =>
      simp [Behavior.update, RotateState.update, hmax]
  | orbit s =>
    cases s with
    | mk ru asp ph ax =>
      simp [Behavior.update, OrbitState.update, hmax]
  | crosshair s => rfl

/-- Witness for C10: a rotate behavior is untouched by `update(-1)`. -/
theorem behavior_update_nonpos_id_witness :
    (Behavior.rotate (RotateState.mk 1 1 0)).update (-1) =
      Behavior.rotate (RotateState.mk 1 1 0) :=
  behavior_update_nonpos_id (Behavior.rotate (RotateState.mk 1 1 0)) (-1)
    (by norm_num)

/-- The smoothed amplitude after one Bob update: the gap to the target
is multiplied by exactly `exp(-dt*12)` when `dt > 0` (the clamp on the
smoothing factor does not bind). -/
theorem bob_update_gap (b : BobState) (dt : ℝ) (hdt : 0 < dt) :
    (b.update dt).currentAmplitude - b.amplitude =
      (b.currentAmplitude - b.amplitude) * Real.exp (-dt * 12) := by
  have hmax : max 0 dt = dt := max_eq_right hdt.le
  have hexp0 : 0 < Real.exp (-dt * 12) := Real.exp_pos _
  have hexp1 : Real.exp (-dt * 12) < 1 :=
    Real.exp_lt_one_iff.mpr (by nlinarith)
  have hmin : min 1 (1 - Real.exp (-dt * 12)) = 1 - Real.exp (-dt * 12) :=
    min_eq_right (by linarith)
  have hmax2 : max 0 (1 - Real.exp (-dt * 12)) = 1 - Real.exp (-dt * 12) :=
    max_eq_right (by linarith)
  simp only [BobState.update, hmax, hmin, hmax2]
  ring

/-- C7: whenever the smoothed amplitude differs from the target, one
Bob update with `dt > 0` strictly shrinks the gap
`|smoothedAmplitude - target|` and never closes it completely. -/
theorem bob_smoothing_asymptotic (b : BobState) (dt : ℝ)
    (hne : b.currentAmplitude ≠ b.amplitude) (hdt : 0 < dt) :
    |(b.update dt).currentAmplitude - b.amplitude| <
      |b.currentAmplitude - b.amplitude| ∧
    (b.update dt).currentAmplitude ≠ b.amplitude := by
  have hgap := bob_update_gap b dt hdt
  have hexp0 : 0 < Real.exp (-dt * 12) := Real.exp_pos _
  have hexp1 : Real.exp (-dt * 12) < 1 :=
    Real.exp_lt_one_iff.mpr (by nlinarith)
  have hpos : 0 < |b.currentAmplitude - b.amplitude| :=
    abs_pos.mpr (sub_ne_zero.mpr hne)
  constructor
  · rw [hgap, abs_mul, abs_of_pos hexp0]
    exact mul_lt_of_lt_one_right hpos hexp1
  · intro hc
    have : (b.currentAmplitude - b.amplitude) * Real.exp (-dt * 12) = 0 := by
      rw [← hgap, hc, sub_self]
    rcases mul_eq_zero.mp this with h0 | h0
    · exact hne (by linarith [sub_eq_zero.mp h0])
    · exact hexp0.ne' h0

/-- Witness for C7 at a concrete Bob state with target amplitude `1`
and smoothed amplitude `0`, stepped by `dt = 1`. -/
theorem bob_smoothing_asymptotic_witness :
    |((BobState.mk 1 2 0 0).update 1).currentAmplitude -
        (BobState.mk 1 2 0 0).amplitude| <
      |(BobState.mk 1 2 0 0).currentAmplitude -
        (BobState.mk 1 2 0 0).amplitude| ∧
    ((BobState.mk 1 2 0 0).update 1).currentAmplitude ≠
      (BobState.mk 1 2 0 0).amplitude :=
  bob_smoothing_asymptotic (BobState.mk 1 2 0 0) 1 (by norm_num) (by norm_num)

/-- C8: after `addBehavior`, exactly the new behavior carries its type
tag, behaviors of all other types are untouched, and adding two
behaviors of the same type in sequence is the same as adding only the
second. -/
theorem addBehavior_replaces_type (l : List Behavior) (b b1 b2 : Behavior)
    (h : b1.type = b2.type) :
    (addBehavior l b).filter (fun x => decide (x.type = b.type)) = [b] ∧
    (addBehavior l b).filter (fun x => decide (x.type ≠ b.type)) =
      l.filter (fun x => decide (x.type ≠ b.type)) ∧
    addBehavior (addBehavior l b1) b2 = addBehavior l b2 := by
  refine ⟨?_, ?_, ?_⟩
  · rw [addBehavior, List.filter_append]
    have h1 : (l.filter fun x => decide (x.type ≠ b.type)).filter
        (fun x => decide (x.type = b.type)) = [] := by
      rw [List.filter_filter]
      apply List.filter_eq_nil_iff.mpr
      intro a _
      simp
    rw [h1]
    simp
  · rw [addBehavior, List.filter_append, List.filter_filter]
    simp
  · rw [addBehavior, addBehavior, addBehavior, List.filter_append,
      List.filter_filter]
    have h1 : [b1].filter (fun x => decide (x.type ≠ b2.type)) = [] := by
      simp [h]
    rw [h1]
    have h2 : (fun x : Behavior =>
          decide (x.type ≠ b2.type) && decide (x.type ≠ b1.type))
        = fun x : Behavior => decide (x.type ≠ b2.type) := by
      funext x
      rw [h]
      exact Bool.and_self _
    rw [h2]
    simp

/-- Witness for C8: adding two Bob behaviors in sequence to a
single-rotate list keeps only the second Bob. -/
theorem addBehavior_replaces_type_witness :
    addBehavior
        (addBehavior [Behavior.rotate (RotateState.mk 1 1 0)]
          (Behavior.bob (BobState.mk 1 2 0 0)))
        (Behavior.bob (BobState.mk 3 2 0 0)) =
      addBehavior [Behavior.rotate (RotateState.mk 1 1 0)]
        (Behavior.bob (BobState.mk 3 2 0 0)) :=
  (addBehavior_replaces_type [Behavior.rotate (RotateState.mk 1 1 0)]
      (Behavior.bob (BobState.mk 3 2 0 0))
      (Behavior.bob (BobState.mk 1 2 0 0))
      (Behavior.bob (BobState.mk 3 2 0 0)) rfl).2.2

/-- Counterexample for C2 as stated: with base radius `0`, amplitude
`1` and the single harmonic `{amplitude := 1, frequency := 0,
phase := 0}`, at angle `0` and phase time `π` the code returns
`sin(0.9*π) > 0`, not the claimed
`0 + 1 * (1 * sin(0*0 + 0 + π)) = 0`. -/
theorem radiusAt_unscaled_time_counterexample :
    (BlobModel.mk 0 1 [Harmonic.mk 1 0 0]).radiusAt 0 Real.pi ≠
      (0 : ℝ) + 1 * ((1 : ℝ) * Real.sin (0 * 0 + 0 + Real.pi)) := by
  have hL : (BlobModel.mk 0 1 [Harmonic.mk 1 0 0]).radiusAt 0 Real.pi =
      Real.sin (Real.pi * 0.9) := by
    simp [BlobModel.radiusAt]
  have hR : (0 : ℝ) + 1 * ((1 : ℝ) * Real.sin (0 * 0 + 0 + Real.pi)) = 0 := by
    simp [Real.sin_pi]
  have hpos : 0 < Real.sin (Real.pi * 0.9) :=
    Real.sin_pos_of_pos_of_lt_pi (by positivity)
      (by nlinarith [Real.pi_pos])
  rw [hL, hR]
  exact ne_of_gt hpos

/-- Factoring the blob amplitude out of the harmonic sum. -/
theorem harmonic_sum_factor (amp angle t : ℝ) (l : List Harmonic) :
    (l.map (fun h =>
      amp * h.amplitude *
        Real.sin (h.frequency * angle + h.phase + t * 0.9))).sum =
      amp * (l.map (fun h =>
        h.amplitude *
          Real.sin (h.frequency * angle + h.phase + 0.9 * t))).sum := by
  induction l with
  | nil => simp
  | cons h tl ih =>
    simp only [List.map_cons, List.sum_cons, ih]
    ring_nf
    ring

/-- C2 amended: `radiusAt(angle, phaseTime)` is the pure function
`baseRadius + amplitude * Σ_h h.amplitude * sin(h.frequency*angle +
h.phase + 0.9*phaseTime)` — the code scales the phase time by `0.9`
inside the sine. -/
theorem radiusAt_closed_form (b : BlobModel) (angle t : ℝ) :
    b.radiusAt angle t =
      b.baseRadius + b.amplitude *
        (b.harmonics.map (fun h =>
          h.amplitude *
            Real.sin (h.frequency * angle + h.phase + 0.9 * t))).sum := by
  rw [radiusAt_eq_sum, harmonic_sum_factor]

/-- The harmonic contribution sum is bounded by the amplitude times the
sum of the absolute harmonic amplitudes. -/
theorem harmonic_sum_abs_bound (amp angle t : ℝ) (h : 0 ≤ amp)
    (l : List Harmonic) :
    |(l.map (fun hh =>
      amp * hh.amplitude *
        Real.sin (hh.frequency * angle + hh.phase + t * 0.9))).sum| ≤
      amp * (l.map fun x => |x.amplitude|).sum := by
  induction l with
  | nil => simp
  | cons hh tl ih =>
    simp only [List.map_cons, List.sum_cons]
    have hterm : |amp * hh.amplitude *
        Real.sin (hh.frequency * angle + hh.phase + t * 0.9)| ≤
        amp * |hh.amplitude| := by
      rw [abs_mul, abs_mul, abs_of_nonneg h]
      exact mul_le_of_le_one_right (mul_nonneg h (abs_nonneg _))
        (Real.abs_sin_le_one _)
    calc |amp * hh.amplitude *
          Real.sin (hh.frequency * angle + hh.phase + t * 0.9) +
          (tl.map (fun hh =>
            amp * hh.amplitude *
              Real.sin (hh.frequency * angle + hh.phase + t * 0.9))).sum|
        ≤ |amp * hh.amplitude *
            Real.sin (hh.frequency * angle + hh.phase + t * 0.9)| +
          |(tl.map (fun hh =>
            amp * hh.amplitude *
              Real.sin (hh.frequency * angle + hh.phase + t * 0.9))).sum| :=
          abs_add _ _
      _ ≤ amp * |hh.amplitude| + amp * (tl.map fun x => |x.amplitude|).sum :=
          add_le_add hterm ih
      _ = amp * (|hh.amplitude| + (tl.map fun x => |x.amplitude|).sum) := by
          ring

/-- C9: for every blob state with its (always non-negative, in fact
constant `0.12`) amplitude, `radiusAt` lies within
`baseRadius ± amplitude * Σ|h.amplitude|`. -/
theorem radiusAt_amplitude_bound (b : BlobModel) (angle t : ℝ)
    (h : 0 ≤ b.amplitude) :
    b.baseRadius - b.amplitude * (b.harmonics.map fun x => |x.amplitude|).sum ≤
        b.radiusAt angle t ∧
      b.radiusAt angle t ≤
        b.baseRadius + b.amplitude * (b.harmonics.map fun x => |x.amplitude|).sum := by
  rw [radiusAt_eq_sum]
  have key := harmonic_sum_abs_bound b.amplitude angle t h b.harmonics
  rcases abs_le.mp key with ⟨h1, h2⟩
  constructor
  · linarith
  · linarith

/-- Witness for C9 on a freshly constructed blob (amplitude `0.12`)
with one harmonic, at angle `0` and time `0`. -/
theorem radiusAt_amplitude_bound_witness :
    (BlobModel.new 0.55 [Harmonic.mk 1 2 0]).baseRadius -
        (BlobModel.new 0.55 [Harmonic.mk 1 2 0]).amplitude *
          ((BlobModel.new 0.55 [Harmonic.mk 1 2 0]).harmonics.map
            fun x => |x.amplitude|).sum ≤
        (BlobModel.new 0.55 [Harmonic.mk 1 2 0]).radiusAt 0 0 ∧
      (BlobModel.new 0.55 [Harmonic.mk 1 2 0]).radiusAt 0 0 ≤
        (BlobModel.new 0.55 [Harmonic.mk 1 2 0]).baseRadius +
          (BlobModel.new 0.55 [Harmonic.mk 1 2 0]).amplitude *
            ((BlobModel.new 0.55 [Harmonic.mk 1 2 0]).harmonics.map
              fun x => |x.amplitude|).sum :=
  radiusAt_amplitude_bound (BlobModel.new 0.55 [Harmonic.mk 1 2 0]) 0 0
    (by norm_num [BlobModel.new])

/-- C3: for a positive frame delta the impulse state is advanced on
each axis independently by the semi-implicit Euler step followed by the
snap-to-zero test on the stepped values; for a non-positive delta it is
left exactly unchanged. -/
theorem advanceImpulse_characterization (s : ImpulseState) (dt : ℝ) :
    (0 < dt →
      advanceImpulse s dt =
        { offset := ⟨(snapAxis (eulerAxis s.offset.x s.velocity.x dt)).1,
            (snapAxis (eulerAxis s.offset.y s.velocity.y dt)).1⟩
          velocity := ⟨(snapAxis (eulerAxis s.offset.x s.velocity.x dt)).2,
            (snapAxis (eulerAxis s.offset.y s.velocity.y dt)).2⟩ }) ∧
    (dt ≤ 0 → advanceImpulse s dt = s) := by
  constructor
  · intro h
    rw [advanceImpulse, if_pos h]
    dsimp only [eulerAxis, snapAxis, impulseStiffness, impulseDamping,
      impulseEps]
    split
    · split
      · rfl
      · rfl
    · split
      · rfl
      · rfl
  · intro h
    rw [advanceImpulse, if_neg (not_lt.mpr h)]

/-- Witness for C3: a non-positive delta leaves a concrete state
untouched, and a unit step from offset `(1, 0)`, velocity `(0, 0)`
produces exactly the snapped Euler step on each axis. -/
theorem advanceImpulse_characterization_witness :
    advanceImpulse ⟨⟨1, 2⟩, ⟨3, 4⟩⟩ (-1) = ⟨⟨1, 2⟩, ⟨3, 4⟩⟩ ∧
    advanceImpulse ⟨⟨1, 0⟩, ⟨0, 0⟩⟩ 1 =
      { offset := ⟨(snapAxis (eulerAxis 1 0 1)).1, (snapAxis (eulerAxis 0 0 1)).1⟩
        velocity := ⟨(snapAxis (eulerAxis 1 0 1)).2,
          (snapAxis (eulerAxis 0 0 1)).2⟩ } :=
  ⟨(advanceImpulse_characterization ⟨⟨1, 2⟩, ⟨3, 4⟩⟩ (-1)).2 (by norm_num),
    (advanceImpulse_characterization ⟨⟨1, 0⟩, ⟨0, 0⟩⟩ 1).1 (by norm_num)⟩

/-- The clamped interior-plus-rim combination always lands in `[0, 1]`. -/
theorem min_interior_rim_mem (A B : ℝ) :
    min 1 (max 0 A * 0.85 + Real.exp B * 0.35) ∈ Set.Icc (0 : ℝ) 1 := by
  rw [Set.mem_Icc]
  refine ⟨le_min zero_le_one ?_, min_le_left _ _⟩
  have h1 : (0 : ℝ) ≤ max 0 A * 0.85 :=
    mul_nonneg (le_max_left _ _) (by norm_num)
  have h2 : (0 : ℝ) ≤ Real.exp B * 0.35 :=
    mul_nonneg (Real.exp_pos _).le (by norm_num)
  linarith

/-- C5: for every engine state with positive pixel size and grid
dimensions, the per-cell intensity lies in the closed interval
`[0, 1]`. -/
theorem intensityAt_mem_unit (e : EngineState) (col row : ℝ)
    (hw : 0 < e.width) (hh : 0 < e.height)
    (hc : 0 < e.cols) (hr : 0 < e.rows) :
    intensityAt e col row ∈ Set.Icc (0 : ℝ) 1 := by
  unfold intensityAt
  split
  · rw [Set.mem_Icc]
    exact ⟨zero_le_one, le_refl 1⟩
  · exact min_interior_rim_mem _ _

/-- Witness for C5 on a concrete engine state with a 2 by 2 pixel
canvas, a 1 by 1 grid and an empty harmonic set. -/
theorem intensityAt_mem_unit_witness :
    intensityAt
        (EngineState.mk 2 2 1 1 1 1 1 (BlobModel.mk 0.55 0.12 [])
          (FrameState.mk 0 0 0 none none) false none none) 0 0 ∈
      Set.Icc (0 : ℝ) 1 :=
  intensityAt_mem_unit
    (EngineState.mk 2 2 1 1 1 1 1 (BlobModel.mk 0.55 0.12 [])
      (FrameState.mk 0 0 0 none none) false none none) 0 0
    (by norm_num) (by norm_num) (by norm_num) (by norm_num)

/-- C1: the code applies the cursor deformation at full hardcoded
strength whenever `cursorTheta` is non-null, even though the
accumulated `cursorInfluence` of an engine with no Crosshair behavior
is `0`: at a frame with the cursor at the center and an aligned sample
angle the code compresses the base radius `1` to `1 - 0.9`, while the
specified gate (influence `> 0`, scaled by the accumulated strength)
would leave it at `1`. The accumulation loop also discards a Crosshair
behavior's contribution entirely. -/
theorem crosshair_influence_not_read :
    deformedRadius (FrameState.mk 0 0 0 (some 0) (some 0)) 0 1 = 1 - 0.9 ∧
    accumulatedCursorInfluence [] = 0 ∧
    deformedRadiusSpec (accumulatedCursorInfluence [])
        (FrameState.mk 0 0 0 (some 0) (some 0)) 0 1 = 1 ∧
    frameContributions [Behavior.crosshair (CrosshairState.mk 1)] =
      frameContributions [] := by
  refine ⟨?_, rfl, ?_, ?_⟩
  · simp [deformedRadius, Real.cos_zero]
  · simp [deformedRadiusSpec, accumulatedCursorInfluence]
  · simp [frameContributions, Behavior.contribute, addChannel, readChannel,
      emptyAcc, Channels.rotationPhase, Channels.xOffsetUnits,
      Channels.yOffsetUnits, Channels.cursorInfluence]

end Orbweaver
